import Mathlib

/-!
# Verification of the Kafka-style ApiVersions server (`src/app/main.go`)

A shallow embedding of the protocol core of the repository: the byte
cursor (`need`, `i16`, `i32`, `str16`, `uvarint`, `compactNullableString`,
`skipTagged`), the dual-encoding header decoder (`parseHeader`), the
version policy, the response encoder (`buildApiVersionsResponse`) and one
iteration of the per-connection loop (`handleStep`).

Machine integers are modelled explicitly: Go `byte` is `Fin 256`, Go
`int`/`int64` values are `Int` reduced through two's-complement
wraparound (`wrap64`), `uint64` values are `Nat` reduced mod `2^64`, and
the `int16`/`int32` decoders go through `toSigned`.  Go slice-expression
panics (out-of-range bounds) are a distinct outcome `Res.panic`, since
several claims are about the absence or presence of runtime faults.
-/

/-- A Go `byte`. -/
abbrev Byte := Fin 256

/-- Go's conversion of an unsigned quantity to `byte` (take the value mod 256). -/
def byteOf (n : Nat) : Byte := ⟨n % 256, Nat.mod_lt _ (by decide)⟩

/-- Interpret the low `w` bits of `n` as a `w`-bit two's-complement signed value.
This is Go's `int16(...)` / `int32(...)` / `int64(...)` reinterpretation. -/
def toSigned (w : Nat) (n : Nat) : Int :=
  if n % 2 ^ w < 2 ^ (w - 1) then ((n % 2 ^ w : Nat) : Int)
  else ((n % 2 ^ w : Nat) : Int) - 2 ^ w

/-- Go's `int(u)` conversion of a `uint64` value (64-bit two's complement). -/
def toInt64 (n : Nat) : Int := toSigned 64 n

/-- Reduce an unbounded `Int` to the Go 64-bit `int` it would be stored as. -/
def wrap64 (z : Int) : Int := toInt64 (z % (18446744073709551616 : Int)).toNat

/-- Go `int` addition (64-bit, wraps on overflow). -/
def goAdd (a b : Int) : Int := wrap64 (a + b)

/-- Big-endian value of a byte list (`binary.BigEndian.Uint16/Uint32` on a
list of exactly 2 or 4 bytes). -/
def beNat (l : List Byte) : Nat := l.foldl (fun a b => a * 256 + b.val) 0

/-- Outcome of a cursor operation or of the handler: success, the Go
`error` return (`io.ErrUnexpectedEOF` — the only error value the cursor
produces), or a Go runtime panic (slice bounds out of range). -/
inductive Res (α : Type) where
  | ok : α → Res α
  | err : Res α
  | panic : Res α
deriving Repr, DecidableEq

/-- The `cursor` struct: buffer `b` and offset `off` (a Go `int`, so it may
in principle hold any 64-bit value, including negative ones). -/
structure Cursor where
  b : List Byte
  off : Int
deriving Repr, DecidableEq

namespace Cursor

/-- `need`: `true` iff Go's `c.off+n > len(c.b)` holds, i.e. the read must
fail with `io.ErrUnexpectedEOF`. -/
def need (c : Cursor) (n : Int) : Bool := (c.b.length : Int) < goAdd c.off n

/-- `i16`: big-endian signed 16-bit read.  After `need` passes, Go evaluates
`binary.BigEndian.Uint16(c.b[c.off:])`, which panics when `c.off` is out of
range for the slice or fewer than 2 bytes remain. -/
def i16 (c : Cursor) : Res (Int × Cursor) :=
  if c.need 2 then .err
  else if c.off < 0 ∨ (c.b.length : Int) < c.off + 2 then .panic
  else
    let o := c.off.toNat
    .ok (toSigned 16 ((c.b.getD o 0).val * 256 + (c.b.getD (o + 1) 0).val),
         { c with off := goAdd c.off 2 })

/-- `i32`: big-endian signed 32-bit read. -/
def i32 (c : Cursor) : Res (Int × Cursor) :=
  if c.need 4 then .err
  else if c.off < 0 ∨ (c.b.length : Int) < c.off + 4 then .panic
  else
    let o := c.off.toNat
    .ok (toSigned 32 ((((c.b.getD o 0).val * 256 + (c.b.getD (o + 1) 0).val) * 256
          + (c.b.getD (o + 2) 0).val) * 256 + (c.b.getD (o + 3) 0).val),
         { c with off := goAdd c.off 4 })

/-- `str16`: legacy Kafka STRING — int16 length, negative means null. -/
def str16 (c : Cursor) : Res (List Byte × Cursor) :=
  match c.i16 with
  | .err => .err
  | .panic => .panic
  | .ok (l, c1) =>
    if l < 0 then .ok ([], c1)
    else if c1.need l then .err
    else if c1.off < 0 ∨ (c1.b.length : Int) < c1.off + l then .panic
    else .ok ((c1.b.drop c1.off.toNat).take l.toNat, { c1 with off := goAdd c1.off l })

end Cursor

/-- `encoding/binary.Uvarint` loop: `i` is the byte index, `x` the
accumulator, `s` the shift.  Returns `(value, n)` where `n > 0` is the byte
count on success, `n = 0` means truncated input and `n < 0` overflow
(more than 10 bytes, or a 10th byte above 1). -/
def uvarintAux : List Byte → Nat → Nat → Nat → Nat × Int
  | [], _, _, _ => (0, 0)
  | b :: rest, i, x, s =>
    if i = 10 then (0, -((i : Int) + 1))
    else if b.val < 128 then
      if i = 9 ∧ 1 < b.val then (0, -((i : Int) + 1))
      else (x ||| ((b.val <<< s) % 18446744073709551616), (i : Int) + 1)
    else uvarintAux rest (i + 1)
        ((x ||| (((b.val &&& 127) <<< s) % 18446744073709551616)) % 18446744073709551616)
        (s + 7)

/-- `binary.Uvarint` over a byte slice. -/
def uvarintGo (l : List Byte) : Nat × Int := uvarintAux l 0 0 0

namespace Cursor

/-- `uvarint`: Go first evaluates the slice `c.b[c.off:]` (panicking when
`off` is out of range), then runs `binary.Uvarint` and rejects `n <= 0`. -/
def uvarint (c : Cursor) : Res (Nat × Cursor) :=
  if c.off < 0 ∨ (c.b.length : Int) < c.off then .panic
  else
    let p := uvarintGo (c.b.drop c.off.toNat)
    if p.2 ≤ 0 then .err
    else .ok (p.1, { c with off := goAdd c.off p.2 })

/-- `compactNullableString`: uvarint `n1`, `0` = null, else `n1 - 1` content
bytes.  `n := int(n1 - 1)` is an unchecked `uint64 → int` conversion; the
slice `c.b[c.off : c.off+n]` panics when the resulting high bound is below
the low one or out of range. -/
def compactNullableString (c : Cursor) : Res (List Byte × Cursor) :=
  match c.uvarint with
  | .err => .err
  | .panic => .panic
  | .ok (n1, c1) =>
    if n1 = 0 then .ok ([], c1)
    else
      let n : Int := toInt64 (n1 - 1)
      if c1.need n then .err
      else
        let hi := goAdd c1.off n
        if c1.off < 0 ∨ hi < c1.off ∨ (c1.b.length : Int) < hi then .panic
        else .ok ((c1.b.drop c1.off.toNat).take n.toNat, { c1 with off := hi })

end Cursor

/-- The `for i := uint64(0); i < cnt; i++` loop body of `skipTagged`:
tag id (uvarint, discarded), size (uvarint), then `c.off += int(sz)` after
`need(int(sz))` — again an unchecked `uint64 → int` conversion. -/
def skipTaggedLoop : Nat → Cursor → Res Cursor
  | 0, c => .ok c
  | k + 1, c =>
    match c.uvarint with
    | .err => .err
    | .panic => .panic
    | .ok (_, c1) =>
      match c1.uvarint with
      | .err => .err
      | .panic => .panic
      | .ok (sz, c2) =>
        let n : Int := toInt64 sz
        if c2.need n then .err
        else skipTaggedLoop k { c2 with off := goAdd c2.off n }

/-- `skipTagged`: count (uvarint), then `count` entries. -/
def Cursor.skipTagged (c : Cursor) : Res Cursor :=
  match c.uvarint with
  | .err => .err
  | .panic => .panic
  | .ok (cnt, c1) => skipTaggedLoop cnt c1

/-- The request header produced by `parseHeader`. -/
structure Header where
  apiKey : Int
  apiVer : Int
  corrID : Int
  clientID : List Byte
deriving Repr, DecidableEq

/-- The flexible branch of `parseHeader` (lines 212–218 of `main.go`):
compact nullable string, then the tagged-fields block. -/
def flexClientId (c : Cursor) : Res (List Byte × Cursor) :=
  match c.compactNullableString with
  | .err => .err
  | .panic => .panic
  | .ok (cid, c1) =>
    match c1.skipTagged with
    | .err => .err
    | .panic => .panic
    | .ok c2 => .ok (cid, c2)

/-- `parseHeader`: apiKey, apiVersion, correlationId, then the legacy
`str16` attempt; on its error the offset is restored to the checkpoint and
the flexible branch runs over the same bytes.  `Res.err` is Go's
`ok = false` return. -/
def parseHeader (c : Cursor) : Res (Header × Cursor) :=
  match c.i16 with
  | .err => .err
  | .panic => .panic
  | .ok (apiKey, c1) =>
    match c1.i16 with
    | .err => .err
    | .panic => .panic
    | .ok (apiVer, c2) =>
      match c2.i32 with
      | .err => .err
      | .panic => .panic
      | .ok (corrID, c3) =>
        match c3.str16 with
        | .panic => .panic
        | .ok (clientID, c4) => .ok (⟨apiKey, apiVer, corrID, clientID⟩, c4)
        | .err =>
          match flexClientId { c3 with off := c3.off } with
          | .err => .err
          | .panic => .panic
          | .ok (clientID, c5) => .ok (⟨apiKey, apiVer, corrID, clientID⟩, c5)

/-- Lines 176–179 of `handleConn`: the version policy. -/
def decideErrCode (apiKey apiVer : Int) : Int :=
  if apiKey = 18 ∧ (4 < apiVer ∨ apiVer < 0) then 35 else 0

/-- Go's `uint16` image of an `int16` (two's complement). -/
def toUint16 (z : Int) : Nat := (z % 65536).toNat

/-- Go's `uint32` image of an `int32` (two's complement). -/
def toUint32 (z : Int) : Nat := (z % 4294967296).toNat

/-- `binary.BigEndian.PutUint32`: the four big-endian bytes of `n`. -/
def be32 (n : Nat) : List Byte :=
  [byteOf (n / 16777216), byteOf (n / 65536), byteOf (n / 256), byteOf n]

/-- `buildApiVersionsResponse`.  The first two body bytes are
`byte(errCode>>8), byte(errCode)`, i.e. the big-endian bytes of the 16-bit
two's-complement image of `errCode`. -/
def buildApiVersionsResponse (corrID errCode : Int) : List Byte :=
  let u := toUint16 errCode
  let body : List Byte :=
    byteOf (u / 256) :: byteOf u ::                -- error_code
    [byteOf 2,                                     -- compact array length N+1
     byteOf 0, byteOf 18,                          -- api_key = 18
     byteOf 0, byteOf 0,                           -- min_version = 0
     byteOf 0, byteOf 4,                           -- max_version = 4
     byteOf 0,                                     -- element TAG_BUFFER
     byteOf 0, byteOf 0, byteOf 0, byteOf 0,       -- throttle_time_ms = 0
     byteOf 0]                                     -- response TAG_BUFFER
  be32 (4 + body.length) ++ be32 (toUint32 corrID) ++ body

/-- Observable outcome of one iteration of the `handleConn` loop:
a response written (with the unread remainder of the stream), the
connection closed with nothing written, or a runtime panic. -/
inductive StepResult where
  | respond (resp : List Byte) (rest : List Byte)
  | close
  | panic
deriving Repr, DecidableEq

/-- One iteration of `handleConn` over the connection's incoming byte
stream: read the 4-byte length, bounds-check it, read the payload, parse
the header, decide the error code and build the response.  Every `return`
path that writes nothing is `close`. -/
def handleStep (input : List Byte) : StepResult :=
  if input.length < 4 then .close
  else
    let frameSize : Int := toSigned 32 (beNat (input.take 4))
    if frameSize < 0 then .close
    else if 10 * 1024 * 1024 < frameSize then .close
    else
      let rest := input.drop 4
      if (rest.length : Int) < frameSize then .close
      else
        let payload := rest.take frameSize.toNat
        match parseHeader ⟨payload, 0⟩ with
        | .err => .close
        | .panic => .panic
        | .ok (h, _) =>
            .respond (buildApiVersionsResponse h.corrID (decideErrCode h.apiKey h.apiVer))
                     (rest.drop frameSize.toNat)

/-! ## Concrete inputs used by the theorems -/

/-- The spec's example request payload: apiKey=18, apiVersion=4,
correlationId=7, legacy clientId "test". -/
def examplePayload : List Byte :=
  [0x00, 0x12, 0x00, 0x04, 0x00, 0x00, 0x00, 0x07, 0x00, 0x04, 0x74, 0x65, 0x73, 0x74]

/-- The example request as it arrives on the wire: 4-byte length prefix 14,
then the payload, then end of stream. -/
def exampleInput : List Byte := [0x00, 0x00, 0x00, 0x0e] ++ examplePayload

/-- The 24-byte response frame printed in the spec's example. -/
def specExampleResponse : List Byte :=
  [0x00, 0x00, 0x00, 0x13, 0x00, 0x00, 0x00, 0x07, 0x00, 0x00, 0x02, 0x00,
   0x12, 0x00, 0x00, 0x00, 0x04, 0x00, 0x00, 0x00, 0x00, 0x00, 0x00, 0x00]

/-- The 23-byte response frame the server actually builds for the example
request: the spec's example minus its final spurious `00` byte, consistent
with the frame-length field 0x13 = 19 (4 correlation-id bytes + 15 body
bytes). -/
def actualExampleResponse : List Byte :=
  [0x00, 0x00, 0x00, 0x13, 0x00, 0x00, 0x00, 0x07, 0x00, 0x00, 0x02, 0x00,
   0x12, 0x00, 0x00, 0x00, 0x04, 0x00, 0x00, 0x00, 0x00, 0x00, 0x00]

/-- A tagged-fields block whose single entry declares size `2^63`
(10-byte varint `80 80 80 80 80 80 80 80 80 01`): count 1, tag id 0, size. -/
def hugeSizeTaggedBlock : List Byte :=
  [0x01, 0x00, 0x80, 0x80, 0x80, 0x80, 0x80, 0x80, 0x80, 0x80, 0x80, 0x01]

/-- A compact-string length prefix encoding `2^64 - 1`
(10-byte varint `ff ff ff ff ff ff ff ff ff 01`). -/
def hugeLenCompactString : List Byte :=
  [0xff, 0xff, 0xff, 0xff, 0xff, 0xff, 0xff, 0xff, 0xff, 0x01]

/-! ## Arithmetic helper lemmas -/

theorem wrap64_eq (z : Int) (h1 : -(9223372036854775808 : Int) ≤ z)
    (h2 : z < 9223372036854775808) : wrap64 z = z := by
  unfold wrap64 toInt64 toSigned
  have h3 : 0 ≤ z % 18446744073709551616 := Int.emod_nonneg z (by norm_num)
  have h4 : z % 18446744073709551616 < 18446744073709551616 :=
    Int.emod_lt_of_pos z (by norm_num)
  have h5 : (2 : Nat) ^ 64 = 18446744073709551616 := by norm_num
  have h6 : (2 : Nat) ^ (64 - 1) = 9223372036854775808 := by norm_num
  rw [h5, h6]
  split <;> omega

theorem goAdd_eq (a b : Int) (h1 : -(9223372036854775808 : Int) ≤ a + b)
    (h2 : a + b < 9223372036854775808) : goAdd a b = a + b :=
  wrap64_eq _ h1 h2

/-! ## C1 — the spec's example frame -/

/-- C1 counterexample: on the spec's example request the handler writes the
23-byte frame `actualExampleResponse`, not the 24-byte sequence printed in
the spec (which has a spurious final `00`, contradicting its own length
field 0x13 = 19). -/
theorem C1_spec_example_mismatch :
    handleStep exampleInput = .respond actualExampleResponse [] ∧
    actualExampleResponse ≠ specExampleResponse ∧
    actualExampleResponse.length = 23 ∧ specExampleResponse.length = 24 := by
  decide

/-- C1 (amended): for the example request frame (payload
`00 12 00 04 00 00 00 07 00 04 74 65 73 74`) the connection handler writes
back exactly the 23-byte frame
`00 00 00 13 00 00 00 07 00 00 02 00 12 00 00 00 04 00 00 00 00 00 00`,
byte for byte, and nothing else remains to be read on the stream. -/
theorem C1_handler_exact_response :
    handleStep exampleInput = .respond actualExampleResponse [] ∧
    actualExampleResponse.length = 23 := by
  decide

/-! ## C2 — the version policy -/

/-- C2: the decided error code is 35 (`UNSUPPORTED_VERSION`) iff
`apiKey = 18` and `apiVersion` is negative or above 4, and in every other
case it is 0 (`NONE`). -/
theorem C2_version_policy (apiKey apiVer : Int) :
    (decideErrCode apiKey apiVer = 35 ↔ apiKey = 18 ∧ (apiVer < 0 ∨ 4 < apiVer)) ∧
    decideErrCode apiKey apiVer =
      if apiKey = 18 ∧ (apiVer < 0 ∨ 4 < apiVer) then 35 else 0 := by
  unfold decideErrCode
  constructor
  · constructor
    · intro h
      split at h
      · rename_i hc
        exact ⟨hc.1, hc.2.elim Or.inr Or.inl⟩
      · exact absurd h (by norm_num)
    · intro h
      rw [if_pos ⟨h.1, h.2.elim Or.inr Or.inl⟩]
  · split
    · rename_i hc
      rw [if_pos ⟨hc.1, hc.2.elim Or.inr Or.inl⟩]
    · rename_i hc
      rw [if_neg]
      intro h
      exact hc ⟨h.1, h.2.elim Or.inr Or.inl⟩

/-! ## C3 — response encoder layout -/

/-- C3: the encoder is total, and its output is, in order: a 4-byte
big-endian frame length equal to 4 plus the body length, the 4-byte
big-endian correlation id, and the body — 2-byte error code, the byte
`0x02`, the 7-byte entry {api key 18, min 0, max 4, one `0x00` tag byte},
4 zero throttle bytes and a final `0x00` tag byte. -/
theorem C3_encoder_layout (corrID errCode : Int) :
    ∃ body : List Byte,
      buildApiVersionsResponse corrID errCode =
          be32 (4 + body.length) ++ be32 (toUint32 corrID) ++ body ∧
      body = [byteOf (toUint16 errCode / 256), byteOf (toUint16 errCode)] ++
             [byteOf 2] ++
             [byteOf 0, byteOf 18, byteOf 0, byteOf 0, byteOf 0, byteOf 4, byteOf 0] ++
             [byteOf 0, byteOf 0, byteOf 0, byteOf 0] ++ [byteOf 0] ∧
      body.length = 15 ∧
      (buildApiVersionsResponse corrID errCode).length = 4 + 4 + body.length := by
  exact ⟨_, rfl, rfl, rfl, rfl⟩

/-! ## C8 — cursor-advancement invariant (refuted by `skipTagged`) -/

/-- C8 failing input: on the tagged block whose single entry declares size
`2^63`, `skipTagged` succeeds — and leaves the position at
`12 - 2^63 < 0`: the unchecked `int(sz)` conversion makes `c.off += int(sz)`
move the cursor backwards past the start of the buffer. -/
theorem C8_skipTagged_negative_position :
    Cursor.skipTagged ⟨hugeSizeTaggedBlock, 0⟩ =
      .ok ⟨hugeSizeTaggedBlock, -9223372036854775796⟩ ∧
    (-9223372036854775796 : Int) < 0 := by
  decide

/-! ## C9 — totality of the flexible decoders (refuted) -/

/-- C9 failing input: `compactNullableString` on the 10-byte varint
`ff ff ff ff ff ff ff ff ff 01` (value `2^64 - 1`) hits a Go runtime fault:
`int(n1 - 1)` wraps to `-2`, `need(-2)` passes, and the slice
`c.b[10:8]` panics with "slice bounds out of range". -/
theorem C9_compactNullableString_panics :
    Cursor.compactNullableString ⟨hugeLenCompactString, 0⟩ = .panic := by
  decide
/-! ## C4 — encode/re-parse round trip -/

/-- C4: for every int32 `correlationId` and int16 `errorCode`, re-parsing
the encoder's output recovers them exactly: the first 4 bytes decode
big-endian to the count of bytes that follow, the next 4 to the
correlation id, the next 2 to the error code, and the rest of the body is
the fixed fields — entry {api key 18, min 0, max 4}, throttle 0, empty tag
buffers. -/
theorem C4_encode_roundtrip (corrID errCode : Int)
    (h1 : -2147483648 ≤ corrID) (h2 : corrID < 2147483648)
    (h3 : -32768 ≤ errCode) (h4 : errCode < 32768) :
    toSigned 32 (beNat ((buildApiVersionsResponse corrID errCode).take 4)) =
        ((buildApiVersionsResponse corrID errCode).length : Int) - 4 ∧
    toSigned 32 (beNat (((buildApiVersionsResponse corrID errCode).drop 4).take 4)) = corrID ∧
    toSigned 16 (beNat (((buildApiVersionsResponse corrID errCode).drop 8).take 2)) = errCode ∧
    (buildApiVersionsResponse corrID errCode).drop 10 =
      [byteOf 2, byteOf 0, byteOf 18, byteOf 0, byteOf 0, byteOf 0, byteOf 4,
       byteOf 0, byteOf 0, byteOf 0, byteOf 0, byteOf 0, byteOf 0] := by
  have hr : buildApiVersionsResponse corrID errCode =
      [byteOf 0, byteOf 0, byteOf 0, byteOf 19,
       byteOf (toUint32 corrID / 16777216), byteOf (toUint32 corrID / 65536),
       byteOf (toUint32 corrID / 256), byteOf (toUint32 corrID),
       byteOf (toUint16 errCode / 256), byteOf (toUint16 errCode),
       byteOf 2, byteOf 0, byteOf 18, byteOf 0, byteOf 0, byteOf 0, byteOf 4,
       byteOf 0, byteOf 0, byteOf 0, byteOf 0, byteOf 0, byteOf 0] := by
    unfold buildApiVersionsResponse be32
    norm_num
  rw [hr]
  refine ⟨?_, ?_, ?_, rfl⟩
  · show toSigned 32 (beNat [byteOf 0, byteOf 0, byteOf 0, byteOf 19]) = (23 : Int) - 4
    decide
  · show toSigned 32 (beNat [byteOf (toUint32 corrID / 16777216), byteOf (toUint32 corrID / 65536),
      byteOf (toUint32 corrID / 256), byteOf (toUint32 corrID)]) = corrID
    simp only [beNat, byteOf, toUint32, toSigned, List.foldl_cons, List.foldl_nil]
    norm_num
    split <;> omega
  · show toSigned 16 (beNat [byteOf (toUint16 errCode / 256), byteOf (toUint16 errCode)]) = errCode
    simp only [beNat, byteOf, toUint16, toSigned, List.foldl_cons, List.foldl_nil]
    norm_num
    split <;> omega

theorem C4_encode_roundtrip_witness :
    ((-2147483648 : Int) ≤ 7 ∧ (7 : Int) < 2147483648 ∧
     (-32768 : Int) ≤ 35 ∧ (35 : Int) < 32768) ∧
    toSigned 32 (beNat (((buildApiVersionsResponse 7 35).drop 4).take 4)) = 7 ∧
    toSigned 16 (beNat (((buildApiVersionsResponse 7 35).drop 8).take 2)) = 35 :=
  ⟨⟨by norm_num, by norm_num, by norm_num, by norm_num⟩,
   (C4_encode_roundtrip 7 35 (by norm_num) (by norm_num) (by norm_num) (by norm_num)).2.1,
   (C4_encode_roundtrip 7 35 (by norm_num) (by norm_num) (by norm_num) (by norm_num)).2.2.1⟩

/-! ## C7 — frame-length bounds -/

/-- C7: whatever bytes follow on the stream, a frame whose declared 4-byte
big-endian length is negative or above the 10 MiB ceiling makes the
handler close the connection without reading any payload byte (the result
is `close` for every possible payload continuation `rest`) and without
writing a response. -/
theorem C7_bad_length_closes (b0 b1 b2 b3 : Byte) (rest : List Byte)
    (h : toSigned 32 (beNat [b0, b1, b2, b3]) < 0 ∨
         10 * 1024 * 1024 < toSigned 32 (beNat [b0, b1, b2, b3])) :
    handleStep (b0 :: b1 :: b2 :: b3 :: rest) = .close := by
  have htake : (b0 :: b1 :: b2 :: b3 :: rest).take 4 = [b0, b1, b2, b3] := rfl
  unfold handleStep
  rw [if_neg (by simp)]
  rw [htake]
  rcases h with h | h
  · rw [if_pos h]
  · rw [if_neg (by omega), if_pos h]

theorem C7_bad_length_closes_witness :
    (toSigned 32 (beNat [(0xFF : Byte), 0, 0, 0]) < 0 ∨
     10 * 1024 * 1024 < toSigned 32 (beNat [(0xFF : Byte), 0, 0, 0])) ∧
    handleStep [(0xFF : Byte), 0, 0, 0] = .close :=
  ⟨by decide, C7_bad_length_closes 0xFF 0 0 0 [] (by decide)⟩
/-! ## Evaluation lemmas for the cursor operations -/

theorem i16_eval (c : Cursor) (h0 : 0 ≤ c.off) (hs : c.off + 2 < 9223372036854775808) :
    c.i16 = if (c.b.length : Int) < c.off + 2 then .err
      else .ok (toSigned 16 ((c.b.getD c.off.toNat 0).val * 256 + (c.b.getD (c.off.toNat + 1) 0).val),
                ⟨c.b, c.off + 2⟩) := by
  unfold Cursor.i16 Cursor.need
  rw [goAdd_eq c.off 2 (by omega) hs]
  by_cases hlt : (c.b.length : Int) < c.off + 2
  · rw [if_pos (by simpa using hlt), if_pos hlt]
  · have hnp : ¬ (c.off < 0 ∨ (c.b.length : Int) < c.off + 2) := by push_neg; omega
    rw [if_neg (by simpa using hlt), if_neg hnp, if_neg hlt]

theorem i32_eval (c : Cursor) (h0 : 0 ≤ c.off) (hs : c.off + 4 < 9223372036854775808) :
    c.i32 = if (c.b.length : Int) < c.off + 4 then .err
      else .ok (toSigned 32 ((((c.b.getD c.off.toNat 0).val * 256 + (c.b.getD (c.off.toNat + 1) 0).val) * 256
            + (c.b.getD (c.off.toNat + 2) 0).val) * 256 + (c.b.getD (c.off.toNat + 3) 0).val),
                ⟨c.b, c.off + 4⟩) := by
  unfold Cursor.i32 Cursor.need
  rw [goAdd_eq c.off 4 (by omega) hs]
  by_cases hlt : (c.b.length : Int) < c.off + 4
  · rw [if_pos (by simpa using hlt), if_pos hlt]
  · have hnp : ¬ (c.off < 0 ∨ (c.b.length : Int) < c.off + 4) := by push_neg; omega
    rw [if_neg (by simpa using hlt), if_neg hnp, if_neg hlt]

theorem str16_ok_null (c c1 : Cursor) (l : Int) (hi : c.i16 = .ok (l, c1)) (hl : l < 0) :
    c.str16 = .ok ([], c1) := by
  unfold Cursor.str16
  rw [hi]
  simp [hl]

theorem uvarint_eval (c : Cursor) (h0 : 0 ≤ c.off) (hl : c.off ≤ (c.b.length : Int)) :
    c.uvarint = if (uvarintGo (c.b.drop c.off.toNat)).2 ≤ 0 then .err
      else .ok ((uvarintGo (c.b.drop c.off.toNat)).1,
                ⟨c.b, goAdd c.off (uvarintGo (c.b.drop c.off.toNat)).2⟩) := by
  unfold Cursor.uvarint
  rw [if_neg (by push_neg; omega)]
/-! ## Further helper lemmas -/

theorem toSigned16_neg_iff (v : Nat) (h2 : v < 65536) :
    toSigned 16 v < 0 ↔ 32768 ≤ v := by
  unfold toSigned
  have e1 : (2 : Nat) ^ 16 = 65536 := by norm_num
  have e2 : (2 : Nat) ^ (16 - 1) = 32768 := by norm_num
  rw [e1, e2]
  split <;> omega

theorem toSigned32_eq_of_lt (v : Nat) (h : v < 2147483648) : toSigned 32 v = v := by
  unfold toSigned
  have e1 : (2 : Nat) ^ 32 = 4294967296 := by norm_num
  have e2 : (2 : Nat) ^ (32 - 1) = 2147483648 := by norm_num
  rw [e1, e2]
  split <;> omega

theorem beNat_be32 (n : Nat) (h : n < 4294967296) : beNat (be32 n) = n := by
  unfold beNat be32 byteOf
  simp only [List.foldl_cons, List.foldl_nil]
  omega

theorem uvarintGo_nil : uvarintGo [] = (0, 0) := rfl

theorem uvarintGo_single_high (b : Byte) (hb : 128 ≤ b.val) : uvarintGo [b] = (0, 0) := by
  unfold uvarintGo uvarintAux
  rw [if_neg (by omega), if_neg (by omega)]
  rfl

theorem drop_len9 (l : List Byte) (h : l.length = 9) : l.drop 8 = [l.getD 8 0] := by
  have h8 : 8 < l.length := by omega
  rw [List.drop_eq_getElem_cons h8, List.drop_eq_nil_of_le (by omega),
      List.getD_eq_getElem l 0 h8]

/-- The three unconditional reads of `parseHeader` on a payload of at least
8 bytes. -/
theorem reads8 (p : List Byte) (hlen : 8 ≤ p.length) :
    Cursor.i16 ⟨p, 0⟩ = .ok (toSigned 16 ((p.getD 0 0).val * 256 + (p.getD 1 0).val), ⟨p, 2⟩) ∧
    Cursor.i16 ⟨p, 2⟩ = .ok (toSigned 16 ((p.getD 2 0).val * 256 + (p.getD 3 0).val), ⟨p, 4⟩) ∧
    Cursor.i32 ⟨p, 4⟩ = .ok (toSigned 32 ((((p.getD 4 0).val * 256 + (p.getD 5 0).val) * 256
        + (p.getD 6 0).val) * 256 + (p.getD 7 0).val), ⟨p, 8⟩) := by
  refine ⟨?_, ?_, ?_⟩
  · rw [i16_eval ⟨p, 0⟩ (by norm_num) (by norm_num), if_neg (by push_cast; omega)]
    rfl
  · rw [i16_eval ⟨p, 2⟩ (by norm_num) (by norm_num), if_neg (by push_cast; omega)]
    rfl
  · rw [i32_eval ⟨p, 4⟩ (by norm_num) (by norm_num), if_neg (by push_cast; omega)]
    rfl

/-- A payload shorter than the 8-byte fixed prefix always fails to decode. -/
theorem parseHeader_short (p : List Byte) (hlen : p.length < 8) :
    parseHeader ⟨p, 0⟩ = .err := by
  unfold parseHeader
  by_cases h2 : p.length < 2
  · have e : Cursor.i16 ⟨p, 0⟩ = .err := by
      rw [i16_eval ⟨p, 0⟩ (by norm_num) (by norm_num), if_pos (by push_cast; omega)]
    rw [e]
  · have e1 : Cursor.i16 ⟨p, 0⟩ =
        .ok (toSigned 16 ((p.getD 0 0).val * 256 + (p.getD 1 0).val), ⟨p, 2⟩) := by
      rw [i16_eval ⟨p, 0⟩ (by norm_num) (by norm_num), if_neg (by push_cast; omega)]
      rfl
    by_cases h4 : p.length < 4
    · have e2 : Cursor.i16 ⟨p, 2⟩ = .err := by
        rw [i16_eval ⟨p, 2⟩ (by norm_num) (by norm_num), if_pos (by push_cast; omega)]
      simp only [e1, e2]
    · have e2 : Cursor.i16 ⟨p, 2⟩ =
          .ok (toSigned 16 ((p.getD 2 0).val * 256 + (p.getD 3 0).val), ⟨p, 4⟩) := by
        rw [i16_eval ⟨p, 2⟩ (by norm_num) (by norm_num), if_neg (by push_cast; omega)]
        rfl
      have e3 : Cursor.i32 ⟨p, 4⟩ = .err := by
        rw [i32_eval ⟨p, 4⟩ (by norm_num) (by norm_num), if_pos (by push_cast; omega)]
      simp only [e1, e2, e3]

/-- On a payload of at least 8 bytes, `parseHeader` is exactly the legacy
attempt at the checkpoint `⟨p, 8⟩` with the flexible fallback over the same
bytes. -/
theorem parseHeader_eval (p : List Byte) (hlen : 8 ≤ p.length) :
    ∃ k v cor, parseHeader ⟨p, 0⟩ =
      (match Cursor.str16 ⟨p, 8⟩ with
       | .panic => .panic
       | .ok x => .ok (⟨k, v, cor, x.1⟩, x.2)
       | .err =>
         match flexClientId ⟨p, 8⟩ with
         | .err => .err
         | .panic => .panic
         | .ok x => .ok (⟨k, v, cor, x.1⟩, x.2)) := by
  obtain ⟨e1, e2, e3⟩ := reads8 p hlen
  refine ⟨toSigned 16 ((p.getD 0 0).val * 256 + (p.getD 1 0).val),
          toSigned 16 ((p.getD 2 0).val * 256 + (p.getD 3 0).val),
          toSigned 32 ((((p.getD 4 0).val * 256 + (p.getD 5 0).val) * 256
            + (p.getD 6 0).val) * 256 + (p.getD 7 0).val), ?_⟩
  unfold parseHeader
  simp only [e1, e2, e3]
  cases hs : Cursor.str16 ⟨p, 8⟩ with
  | ok x => obtain ⟨a, b⟩ := x; rfl
  | panic => rfl
  | err =>
    cases hf : flexClientId ⟨p, 8⟩ with
    | ok x => obtain ⟨a, b⟩ := x; rfl
    | err => rfl
    | panic => rfl

/-- The legacy clientId read at the checkpoint returns a null string when
the length's high byte has its top bit set and two bytes are available. -/
theorem str16_at8_null (payload : List Byte) (hlen : 10 ≤ payload.length)
    (hb : 128 ≤ (payload.getD 8 0).val) :
    Cursor.str16 ⟨payload, 8⟩ = .ok ([], ⟨payload, 10⟩) := by
  apply str16_ok_null ⟨payload, 8⟩ ⟨payload, 10⟩
      (toSigned 16 ((payload.getD 8 0).val * 256 + (payload.getD 9 0).val))
  · rw [i16_eval ⟨payload, 8⟩ (by norm_num) (by norm_num), if_neg (by push_cast; omega)]
    rfl
  · have h8 := (payload.getD 8 0).isLt
    have h9 := (payload.getD 9 0).isLt
    rw [toSigned16_neg_iff _ (by omega)]
    omega
/-! ## C5 — header decoding order -/

/-- C5: after the three fixed reads, if the legacy `str16` read at the
checkpoint cursor `c3` succeeds (including the null case), `parseHeader`
returns immediately with that clientId and exactly `str16`'s final cursor
(no tagged-field block is read); only if `str16` errs is the result that
of the flexible decode (`compactNullableString` then `skipTagged`) run at
the same checkpoint over the same bytes. -/
theorem C5_header_decode_order (payload : List Byte) (k v cor : Int) (c1 c2 c3 : Cursor)
    (h1 : Cursor.i16 ⟨payload, 0⟩ = .ok (k, c1))
    (h2 : c1.i16 = .ok (v, c2))
    (h3 : c2.i32 = .ok (cor, c3)) :
    (∀ cid c4, c3.str16 = .ok (cid, c4) →
        parseHeader ⟨payload, 0⟩ = .ok (⟨k, v, cor, cid⟩, c4)) ∧
    (c3.str16 = .err →
        parseHeader ⟨payload, 0⟩ =
          (match flexClientId c3 with
           | .err => .err
           | .panic => .panic
           | .ok x => .ok (⟨k, v, cor, x.1⟩, x.2))) := by
  obtain ⟨b3, o3⟩ := c3
  constructor
  · intro cid c4 h4
    unfold parseHeader
    simp only [h1, h2, h3, h4]
  · intro h4
    unfold parseHeader
    simp only [h1, h2, h3, h4]
    cases hf : flexClientId ⟨b3, o3⟩ with
    | ok x => obtain ⟨a, b⟩ := x; rfl
    | err => rfl
    | panic => rfl

theorem C5_header_decode_order_witness :
    parseHeader ⟨examplePayload, 0⟩ =
      .ok (⟨18, 4, 7, [0x74, 0x65, 0x73, 0x74]⟩, ⟨examplePayload, 14⟩) :=
  (C5_header_decode_order examplePayload 18 4 7 ⟨examplePayload, 2⟩ ⟨examplePayload, 4⟩
      ⟨examplePayload, 8⟩ (by decide) (by decide) (by decide)).1
    [0x74, 0x65, 0x73, 0x74] ⟨examplePayload, 14⟩ (by decide)

/-! ## C6 — malformed headers close the connection without a response -/

/-- C6: when the fixed prefix is truncated, or when both the legacy and the
flexible clientId decodes fail at the checkpoint, the whole header decode
fails; and for any frame whose payload fails to decode, the connection
handler's step is `close` — no response bytes are written. -/
theorem C6_malformed_header_closes (payload : List Byte) :
    (payload.length < 8 → parseHeader ⟨payload, 0⟩ = .err) ∧
    (Cursor.str16 ⟨payload, 8⟩ = .err → flexClientId ⟨payload, 8⟩ = .err →
        parseHeader ⟨payload, 0⟩ = .err) ∧
    (parseHeader ⟨payload, 0⟩ = .err → (payload.length : Int) ≤ 10485760 →
        handleStep (be32 payload.length ++ payload) = .close) := by
  refine ⟨fun h => parseHeader_short payload h, ?_, ?_⟩
  · intro hs hf
    by_cases hlen : payload.length < 8
    · exact parseHeader_short payload hlen
    · obtain ⟨k, v, cor, he⟩ := parseHeader_eval payload (by omega)
      rw [he, hs, hf]
  · intro hperr hsize
    have hfour : (be32 payload.length).length = 4 := rfl
    have ht : (be32 payload.length ++ payload).take 4 = be32 payload.length :=
      List.take_left' hfour
    have hd : (be32 payload.length ++ payload).drop 4 = payload :=
      List.drop_left' hfour
    have hfs : toSigned 32 (beNat (be32 payload.length)) = (payload.length : Int) := by
      rw [beNat_be32 payload.length (by omega), toSigned32_eq_of_lt _ (by omega)]
    unfold handleStep
    rw [if_neg (by simp only [List.length_append, hfour]; omega)]
    rw [ht, hd, hfs]
    rw [if_neg (by omega), if_neg (by omega), if_neg (by omega)]
    have htake : payload.take ((payload.length : Int)).toNat = payload := by
      simp
    rw [htake]
    simp only [hperr]

theorem C6_malformed_header_closes_witness :
    parseHeader (⟨[], 0⟩ : Cursor) = .err ∧
    parseHeader ⟨[0, 0, 0, 0, 0, 0, 0, 0, 0x00, 0x05], 0⟩ = .err ∧
    handleStep (be32 (10 : Nat) ++ [0, 0, 0, 0, 0, 0, 0, 0, 0x00, 0x05]) = .close :=
  ⟨(C6_malformed_header_closes []).1 (by decide),
   (C6_malformed_header_closes [0, 0, 0, 0, 0, 0, 0, 0, 0x00, 0x05]).2.1
      (by decide) (by decide),
   (C6_malformed_header_closes [0, 0, 0, 0, 0, 0, 0, 0, 0x00, 0x05]).2.2
      ((C6_malformed_header_closes [0, 0, 0, 0, 0, 0, 0, 0, 0x00, 0x05]).2.1
        (by decide) (by decide)) (by decide)⟩
/-! ## C10 — legacy decode shadows flexible encodings -/

/-- C10: (1) whenever at least 2 bytes follow the 8-byte prefix and the
byte at the checkpoint has its high bit set, the legacy read sees a
negative length and `parseHeader` succeeds through the legacy path with a
null clientId and final position 10 — the flexible path is never run, so
any flexible header whose compact length prefix is multi-byte is silently
decoded as a null clientId; (2) whenever `parseHeader` succeeds although
the legacy attempt failed (which it can only do by truncation), there is a
byte at the checkpoint and it is below 0x80, i.e. a single-byte compact
length. -/
theorem C10_legacy_shadows_flexible (payload : List Byte) :
    (10 ≤ payload.length → 128 ≤ (payload.getD 8 0).val →
      ∃ k v cor, parseHeader ⟨payload, 0⟩ = .ok (⟨k, v, cor, []⟩, ⟨payload, 10⟩)) ∧
    (∀ h c', parseHeader ⟨payload, 0⟩ = .ok (h, c') → Cursor.str16 ⟨payload, 8⟩ = .err →
      8 < payload.length ∧ (payload.getD 8 0).val < 128) := by
  constructor
  · intro hlen hb
    obtain ⟨k, v, cor, he⟩ := parseHeader_eval payload (by omega)
    refine ⟨k, v, cor, ?_⟩
    rw [he, str16_at8_null payload hlen hb]
  · intro h c' hok hs
    by_cases hlen : payload.length < 8
    · rw [parseHeader_short payload hlen] at hok
      exact Res.noConfusion hok
    · push_neg at hlen
      obtain ⟨k, v, cor, he⟩ := parseHeader_eval payload hlen
      rw [he, hs] at hok
      cases hf : flexClientId ⟨payload, 8⟩ with
      | err => rw [hf] at hok; simp at hok
      | panic => rw [hf] at hok; simp at hok
      | ok x =>
        have huv : ∃ z, Cursor.uvarint ⟨payload, 8⟩ = .ok z := by
          unfold flexClientId at hf
          cases hc : Cursor.compactNullableString ⟨payload, 8⟩ with
          | err => rw [hc] at hf; simp at hf
          | panic => rw [hc] at hf; simp at hf
          | ok y =>
            unfold Cursor.compactNullableString at hc
            cases hu : Cursor.uvarint ⟨payload, 8⟩ with
            | err => rw [hu] at hc; simp at hc
            | panic => rw [hu] at hc; simp at hc
            | ok z => exact ⟨z, rfl⟩
        obtain ⟨z, hu⟩ := huv
        have hue : Cursor.uvarint ⟨payload, 8⟩ =
            if (uvarintGo (payload.drop 8)).2 ≤ 0 then .err
            else .ok ((uvarintGo (payload.drop 8)).1,
                      ⟨payload, goAdd 8 (uvarintGo (payload.drop 8)).2⟩) := by
          rw [uvarint_eval ⟨payload, 8⟩ (by norm_num) (by push_cast; omega)]
          rfl
        rw [hue] at hu
        have hgt8 : 8 < payload.length := by
          by_contra hle
          push_neg at hle
          have h8 : payload.length = 8 := by omega
          rw [List.drop_eq_nil_of_le (by omega), uvarintGo_nil] at hu
          simp at hu
        refine ⟨hgt8, ?_⟩
        by_contra hbv
        push_neg at hbv
        by_cases h10 : 10 ≤ payload.length
        · rw [str16_at8_null payload h10 hbv] at hs
          exact Res.noConfusion hs
        · have h9 : payload.length = 9 := by omega
          rw [drop_len9 payload h9, uvarintGo_single_high _ hbv] at hu
          simp at hu

theorem C10_legacy_shadows_flexible_witness :
    (∃ k v cor, parseHeader ⟨[0, 0, 0, 0, 0, 0, 0, 0, 0xFF, 0x00], 0⟩ =
        .ok (⟨k, v, cor, []⟩, ⟨[0, 0, 0, 0, 0, 0, 0, 0, 0xFF, 0x00], 10⟩)) ∧
    (8 < ([0, 0, 0, 0, 0, 0, 0, 0, 0x01, 0x00] : List Byte).length ∧
      (([0, 0, 0, 0, 0, 0, 0, 0, 0x01, 0x00] : List Byte).getD 8 0).val < 128) :=
  ⟨(C10_legacy_shadows_flexible [0, 0, 0, 0, 0, 0, 0, 0, 0xFF, 0x00]).1
      (by decide) (by decide),
   (C10_legacy_shadows_flexible [0, 0, 0, 0, 0, 0, 0, 0, 0x01, 0x00]).2
      ⟨0, 0, 0, []⟩ ⟨[0, 0, 0, 0, 0, 0, 0, 0, 0x01, 0x00], 10⟩ (by decide) (by decide)⟩
